import Mathlib

/-!
Verification of the clipora recording engine against its specification.

The development shallowly embeds the recording lifecycle state machine, the
timer / auto-stop logic, the canvas layout engine, the audio mixer and the
source-toggle logic of the repository, and proves (or refutes) the spec's
testable properties about them.
-/

namespace Clipora

/-!
## Recording lifecycle state machine

Modelled from the spec: the class `RecordingStateMachine` (imported by
`src/lib/hooks/usePiPRecording.ts` from `../recording-state-machine`) is not
present in the source tree; its states, events and transition table are taken
from spec section 4.1.  States: idle, initializing, recording, stopping,
completed, error.  Events and allowed transitions:
`start` idle to initializing; `streamsReady` initializing to recording;
`requestStop` recording to stopping; `encoderFlushed` stopping to completed;
`fault` any non-terminal to error; `reset` any to idle.  `transition` returns
success or failure and a failed transition is a no-op.
-/

inductive RState where
  | idle
  | initializing
  | recording
  | stopping
  | completed
  | error
deriving DecidableEq, Repr, Fintype

inductive REvent where
  | start
  | streamsReady
  | requestStop
  | encoderFlushed
  | fault
  | reset
deriving DecidableEq, Repr, Fintype

/-- Modelled from the spec: terminal-until-reset states of section 4.1. -/
def isTerminal : RState → Bool
  | .completed => true
  | .error => true
  | _ => false

/-- Modelled from the spec: the transition table of section 4.1, as a
function from current state and event to the new state, `none` meaning
the pair is not permitted. -/
def transition : RState → REvent → Option RState
  | .idle, .start => some .initializing
  | .initializing, .streamsReady => some .recording
  | .recording, .requestStop => some .stopping
  | .stopping, .encoderFlushed => some .completed
  | s, .fault => if isTerminal s then none else some .error
  | _, .reset => some .idle
  | _, _ => none

/-- Modelled from the spec: `transition(event)` returns success/failure and a
failed transition leaves the machine state unchanged (no-op, not thrown). -/
def stepFSM (s : RState) (e : REvent) : Bool × RState :=
  match transition s e with
  | some s2 => (true, s2)
  | none => (false, s)

/-- State after applying a sequence of events, failed transitions being
no-ops. -/
def run (s : RState) (evs : List REvent) : RState :=
  evs.foldl (fun st e => (stepFSM st e).2) s

theorem run_nil (s : RState) : run s [] = s := rfl

theorem run_append (s : RState) (p q : List REvent) :
    run s (p ++ q) = run (run s p) q := by
  simp [run, List.foldl_append]

theorem run_singleton (s : RState) (e : REvent) :
    run s [e] = (stepFSM s e).2 := rfl

/-- The only sources of a step into `recording` are `recording` itself
(failed transition no-op) and `initializing` (via `streamsReady`). -/
theorem step_to_recording :
    ∀ (s : RState) (e : REvent), (stepFSM s e).2 = .recording →
      s = .recording ∨ s = .initializing := by decide

/-!
## startRecording control flow

Embeds `startRecording` of `src/lib/hooks/usePiPRecording.ts` (lines
1423-1538): bail out when no source can record; attempt the transition to
`initializing` and return early when it fails; then set up canvas, loops,
audio and the recorder (any exception in that block triggers the transition
to `error`); finally attempt the transition to `recording` and start the
timer only when that transition succeeds.  `setupFails` abstracts whether the
setup block throws before the `recording` transition is attempted.
-/

structure StartOutcome where
  fsm : RState
  attemptedRecording : Bool
  timerStarted : Bool
deriving DecidableEq, Repr

def startRecording (canRecord setupFails : Bool) (s : RState) : StartOutcome :=
  if canRecord = false then ⟨s, false, false⟩
  else
    match stepFSM s .start with
    | (false, _) => ⟨s, false, false⟩
    | (true, s1) =>
      if setupFails then ⟨(stepFSM s1 .fault).2, false, false⟩
      else
        match stepFSM s1 .streamsReady with
        | (true, s2) => ⟨s2, true, true⟩
        | (false, s1b) => ⟨s1b, true, false⟩

/-- Claim C1: for every valid event sequence the state machine never reaches
`recording` without having first passed through `initializing`;
`startRecording` attempts the transition to `recording` only after the
idle-to-initializing transition succeeded; and a direct idle-to-recording
step is impossible. -/
theorem C1_recording_requires_initializing :
    (∀ evs : List REvent, run .idle evs = .recording →
      ∃ p q, evs = p ++ q ∧ run .idle p = .initializing) ∧
    (∀ (c f : Bool) (s : RState), (startRecording c f s).attemptedRecording = true →
      transition s .start = some .initializing) ∧
    (∀ e : REvent, transition .idle e ≠ some .recording) := by
  refine ⟨?_, by decide, by decide⟩
  intro evs
  induction evs using List.reverseRecOn with
  | nil => intro h; simp [run] at h
  | append_singleton p e ih =>
    intro h
    rw [run_append, run_singleton] at h
    rcases step_to_recording _ _ h with hrec | hinit
    · obtain ⟨p1, q1, hpq, hinit1⟩ := ih hrec
      exact ⟨p1, q1 ++ [e], by simp [hpq], hinit1⟩
    · exact ⟨p, [e], rfl, hinit⟩

theorem C1_witness :
    (∃ p q, [REvent.start, REvent.streamsReady] = p ++ q ∧
      run .idle p = .initializing) ∧
    transition .idle .start = some .initializing ∧
    transition .idle .streamsReady ≠ some .recording := by
  refine ⟨C1_recording_requires_initializing.1 [REvent.start, REvent.streamsReady] (by decide),
    C1_recording_requires_initializing.2.1 true false .idle (by decide),
    C1_recording_requires_initializing.2.2 .streamsReady⟩

/-- Claim C2: `transition` on a (state, event) pair not in the table returns
failure and leaves the state unchanged; in particular a second `start` while
not idle and a second `requestStop` while not recording are both rejected. -/
theorem C2_invalid_transition_noop :
    (∀ (s : RState) (e : REvent), transition s e = none → stepFSM s e = (false, s)) ∧
    (∀ s : RState, s ≠ .idle → transition s .start = none) ∧
    (∀ s : RState, s ≠ .recording → transition s .requestStop = none) := by
  decide

theorem C2_witness :
    stepFSM .recording .start = (false, .recording) ∧
    transition .recording .start = none ∧
    transition .stopping .requestStop = none := by
  exact ⟨C2_invalid_transition_noop.1 .recording .start (by decide),
    C2_invalid_transition_noop.2.1 .recording (by decide),
    C2_invalid_transition_noop.2.2 .stopping (by decide)⟩

/-!
## Timer tick and auto-stop

Embeds `startTimer` (lines 1581-1594) and `performStop` (lines 1597-1609) of
`src/lib/hooks/usePiPRecording.ts`: every second the timer computes the whole
elapsed seconds and, when it reaches `MAX_RECORDING_DURATION`, calls
`performStop`, which attempts the `recording` to `stopping` transition and
returns immediately when the transition fails.
-/

def MAX_RECORDING_DURATION : Nat := 120

/-- Embeds `performStop` reduced to its state-machine effect: attempt the
`requestStop` transition, a failure being an early return (no-op). -/
def performStop (s : RState) : Bool × RState := stepFSM s .requestStop

/-- One timer tick at an elapsed whole-seconds duration: trigger the stop
path exactly when the duration has reached the fixed maximum.  The returned
boolean records whether a stop transition was actually performed. -/
def timerTick (s : RState) (duration : Nat) : Bool × RState :=
  if MAX_RECORDING_DURATION ≤ duration then performStop s else (false, s)

def tickFold (acc : Nat × RState) (d : Nat) : Nat × RState :=
  let r := timerTick acc.2 d
  (acc.1 + (if r.1 then 1 else 0), r.2)

/-- Number of successful stop transitions over a sequence of timer ticks,
together with the final state. -/
def runTimer (s : RState) (ds : List Nat) : Nat × RState :=
  ds.foldl tickFold (0, s)

theorem tickFold_stopping (n : Nat) (d : Nat) :
    tickFold (n, .stopping) d = (n, .stopping) := by
  by_cases h : MAX_RECORDING_DURATION ≤ d <;>
    simp [tickFold, timerTick, performStop, stepFSM, transition, h]

theorem foldl_tickFold_stopping (ds : List Nat) (n : Nat) :
    ds.foldl tickFold (n, .stopping) = (n, .stopping) := by
  induction ds with
  | nil => rfl
  | cons d ds ih => rw [List.foldl_cons, tickFold_stopping, ih]

theorem foldl_tickFold_recording (ds : List Nat) (n : Nat) :
    ds.foldl tickFold (n, .recording) =
      if ds.any (fun d => decide (MAX_RECORDING_DURATION ≤ d)) then
        (n + 1, .stopping)
      else (n, .recording) := by
  induction ds generalizing n with
  | nil => rfl
  | cons d ds ih =>
    rw [List.foldl_cons]
    by_cases h : MAX_RECORDING_DURATION ≤ d
    · have hstep : tickFold (n, .recording) d = (n + 1, .stopping) := by
        simp [tickFold, timerTick, performStop, stepFSM, transition, h]
      rw [hstep, foldl_tickFold_stopping]
      simp [h]
    · have hstep : tickFold (n, .recording) d = (n, .recording) := by
        simp [tickFold, timerTick, h]
      rw [hstep, ih]
      simp [h]

/-- Claim C3: while recording, the first timer tick whose elapsed duration
reaches the 120-second maximum performs the `recording` to `stopping`
transition; a tick in `stopping` is a no-op; and over any sequence of ticks
started in `recording` the stop path succeeds at most once, exactly once as
soon as some tick is at or past the limit. -/
theorem C3_max_duration_stops_once :
    (∀ d : Nat, MAX_RECORDING_DURATION ≤ d →
      timerTick .recording d = (true, .stopping)) ∧
    (∀ d : Nat, timerTick .stopping d = (false, .stopping)) ∧
    (∀ ds : List Nat, (runTimer .recording ds).1 ≤ 1) ∧
    (∀ ds : List Nat, (∃ d ∈ ds, MAX_RECORDING_DURATION ≤ d) →
      (runTimer .recording ds).1 = 1) := by
  refine ⟨?_, ?_, ?_, ?_⟩
  · intro d h
    simp [timerTick, performStop, stepFSM, transition, h]
  · intro d
    by_cases h : MAX_RECORDING_DURATION ≤ d <;>
      simp [timerTick, performStop, stepFSM, transition, h]
  · intro ds
    rw [runTimer, foldl_tickFold_recording]
    by_cases h : ds.any (fun d => decide (MAX_RECORDING_DURATION ≤ d)) = true <;>
      simp [h]
  · intro ds hex
    have hany : ds.any (fun d => decide (MAX_RECORDING_DURATION ≤ d)) = true := by
      obtain ⟨d, hd, hle⟩ := hex
      exact List.any_eq_true.2 ⟨d, hd, by simpa using hle⟩
    rw [runTimer, foldl_tickFold_recording, hany]
    simp

theorem C3_witness :
    timerTick .recording 120 = (true, .stopping) ∧
    timerTick .stopping 121 = (false, .stopping) ∧
    (runTimer .recording [118, 119, 120, 121]).1 ≤ 1 ∧
    (runTimer .recording [118, 119, 120, 121]).1 = 1 := by
  exact ⟨C3_max_duration_stops_once.1 120 (by decide),
    C3_max_duration_stops_once.2.1 121,
    C3_max_duration_stops_once.2.2.1 _,
    C3_max_duration_stops_once.2.2.2 _ ⟨120, by decide, by decide⟩⟩

/-!
## Layout engine

Embeds `src/lib/layouts/layout-engine.ts`.  Canvas painting is modelled as a
list of paint operations in execution order; a `fillRect` paints its whole
rectangle, a `drawImage` paints its destination rectangle unless the source
rectangle is empty (the HTML canvas specification draws nothing when the
source width or height is zero), and an image drawn inside a rounded-rect
clip paints at most the intersection of its destination with the clip shape.
Border strokes are omitted from the model: they only add painted pixels on
top of already painted ones and no claim refers to them.  Coordinates are
rationals; JavaScript division by zero (Infinity/NaN) is avoided by the
positivity hypotheses of the theorems, and the `||` fallback for a zero (or
NaN) camera aspect is modelled by `orIfZero`.
-/

structure Rect where
  x : ℚ
  y : ℚ
  w : ℚ
  h : ℚ
deriving DecidableEq, Repr

structure DrawImageOp where
  sx : ℚ
  sy : ℚ
  sw : ℚ
  sh : ℚ
  dest : Rect
deriving DecidableEq, Repr

inductive PaintOp where
  | fill (r : Rect)
  | image (op : DrawImageOp)
  | clippedImage (clip : Rect) (radius : ℚ) (op : DrawImageOp)
deriving DecidableEq, Repr

def inRect (r : Rect) (px py : ℚ) : Prop :=
  r.x ≤ px ∧ px < r.x + r.w ∧ r.y ≤ py ∧ py < r.y + r.h

/-- Membership in a rounded rectangle: inside the rectangle and within
distance `rad` of the rectangle inset by `rad` on every side. -/
def inRoundRect (r : Rect) (rad : ℚ) (px py : ℚ) : Prop :=
  inRect r px py ∧
    (max (r.x + rad - px) 0 + max (px - (r.x + r.w - rad)) 0) ^ 2 +
      (max (r.y + rad - py) 0 + max (py - (r.y + r.h - rad)) 0) ^ 2 ≤ rad ^ 2

def PaintOp.paintsAt : PaintOp → ℚ → ℚ → Prop
  | .fill r, px, py => inRect r px py
  | .image op, px, py => op.sw ≠ 0 ∧ op.sh ≠ 0 ∧ inRect op.dest px py
  | .clippedImage clip rad op, px, py =>
      op.sw ≠ 0 ∧ op.sh ≠ 0 ∧ inRect op.dest px py ∧ inRoundRect clip rad px py

def covered (ops : List PaintOp) (px py : ℚ) : Prop :=
  ∃ p ∈ ops, p.paintsAt px py

/-- The `background` parameter of a render call: absent, a preloaded
`HTMLImageElement` with its natural size, or a `BackgroundOption` of type
none, gradient (with or without two parsable color stops) or image (not yet
preloaded, so not drawable). -/
inductive Background where
  | missing
  | imageElement (nw nh : ℚ)
  | optionNone
  | optionGradient (twoColors : Bool)
  | optionImage
deriving DecidableEq, Repr

/-- Embeds `drawBackground` of layout-engine.ts (lines 29-98): default black fill,
cover-drawn preloaded image, black fill for type none, full-canvas gradient
fill (with preset colors or the fallback stops), and black fill for an image
option without a preloaded element. -/
def drawBackground (w h : ℚ) (bg : Background) : List PaintOp :=
  match bg with
  | .missing => [.fill ⟨0, 0, w, h⟩]
  | .imageElement nw nh =>
    let aspect := w / h
    let imgAspect := nw / nh
    if imgAspect > aspect then
      [.image ⟨(nw - nh * aspect) / 2, 0, nh * aspect, nh, ⟨0, 0, w, h⟩⟩]
    else
      [.image ⟨0, (nh - nw / aspect) / 2, nw, nw / aspect, ⟨0, 0, w, h⟩⟩]
  | .optionNone => [.fill ⟨0, 0, w, h⟩]
  | .optionGradient _ => [.fill ⟨0, 0, w, h⟩]
  | .optionImage => [.fill ⟨0, 0, w, h⟩]

/-- A video source as seen by the layout engine: `readyState` and intrinsic
`videoWidth`/`videoHeight`. -/
structure VideoSrc where
  readyState : ℕ
  vw : ℚ
  vh : ℚ
deriving DecidableEq, Repr

inductive FitMode where
  | cover
  | contain
deriving DecidableEq, Repr

/-- Embeds `drawVideo` of layout-engine.ts (lines 101-145): skip when
`readyState < 2`; cover crops the source to the destination aspect before
scaling to exactly fill it; contain letterboxes inside the destination,
centered, preserving the source aspect. -/
def drawVideo (v : VideoSrc) (x y w h : ℚ) (mode : FitMode) : List PaintOp :=
  if v.readyState < 2 then [] else
  let videoAspect := v.vw / v.vh
  let destAspect := w / h
  match mode with
  | .cover =>
    if videoAspect > destAspect then
      [.image ⟨(v.vw - v.vh * destAspect) / 2, 0, v.vh * destAspect, v.vh, ⟨x, y, w, h⟩⟩]
    else
      [.image ⟨0, (v.vh - v.vw / destAspect) / 2, v.vw, v.vw / destAspect, ⟨x, y, w, h⟩⟩]
  | .contain =>
    if videoAspect > destAspect then
      [.image ⟨0, 0, v.vw, v.vh, ⟨x, y + (h - w / videoAspect) / 2, w, w / videoAspect⟩⟩]
    else
      [.image ⟨0, 0, v.vw, v.vh, ⟨x + (w - h * videoAspect) / 2, y, h * videoAspect, h⟩⟩]

/-- JavaScript `||` on the camera aspect product: fall back to the default
when the left side is 0 (also the value a zero denominator produces here). -/
def orIfZero (q d : ℚ) : ℚ := if q = 0 then d else q

/-- Wraps the paint of a video drawn inside a rounded-rect clip. -/
def clipRound (clip : Rect) (radius : ℚ) : PaintOp → PaintOp
  | .image op => .clippedImage clip radius op
  | p => p

def renderScreenCameraBR (screen camera : Option VideoSrc) (w h : ℚ)
    (bg : Background) : List PaintOp :=
  drawBackground w h bg ++
    ((match screen with
      | some s => drawVideo s 0 0 w h .contain
      | none => []) ++
     (match camera with
      | some c =>
        let camW := w * 0.2
        let camH := orIfZero (camW * (c.vh / c.vw)) (camW * (9 / 16))
        let x := w - camW - 16
        let y := h - camH - 16
        (drawVideo c x y camW camH .cover).map (clipRound ⟨x, y, camW, camH⟩ 16)
      | none => []))

def renderScreenCameraBL (screen camera : Option VideoSrc) (w h : ℚ)
    (bg : Background) : List PaintOp :=
  drawBackground w h bg ++
    ((match screen with
      | some s => drawVideo s 0 0 w h .contain
      | none => []) ++
     (match camera with
      | some c =>
        let camW := w * 0.2
        let camH := orIfZero (camW * (c.vh / c.vw)) (camW * (9 / 16))
        let x : ℚ := 16
        let y := h - camH - 16
        (drawVideo c x y camW camH .cover).map (clipRound ⟨x, y, camW, camH⟩ 16)
      | none => []))

def renderScreenCameraSideLeft (screen camera : Option VideoSrc) (w h : ℚ)
    (bg : Background) : List PaintOp :=
  drawBackground w h bg ++
    ((match camera with
      | some c => drawVideo c 0 0 (w * 0.3) h .cover
      | none => []) ++
     (match screen with
      | some s => drawVideo s (w * 0.3) 0 (w - w * 0.3) h .contain
      | none => []))

def renderScreenCameraSideRight (screen camera : Option VideoSrc) (w h : ℚ)
    (bg : Background) : List PaintOp :=
  drawBackground w h bg ++
    ((match screen with
      | some s => drawVideo s 0 0 (w - w * 0.3) h .contain
      | none => []) ++
     (match camera with
      | some c => drawVideo c (w - w * 0.3) 0 (w * 0.3) h .cover
      | none => []))

def renderCameraOnlyCenter (screen camera : Option VideoSrc) (w h : ℚ)
    (bg : Background) : List PaintOp :=
  drawBackground w h bg ++
    ((match camera with
      | some c => drawVideo c 0 0 w h .contain
      | none => []) ++ [])

def renderCameraOnlyFull (screen camera : Option VideoSrc) (w h : ℚ)
    (bg : Background) : List PaintOp :=
  drawBackground w h bg ++
    ((match camera with
      | some c => drawVideo c 0 0 w h .cover
      | none => []) ++ [])

def renderScreenOnly (screen camera : Option VideoSrc) (w h : ℚ)
    (bg : Background) : List PaintOp :=
  drawBackground w h bg ++
    ((match screen with
      | some s => drawVideo s 0 0 w h .contain
      | none => []) ++ [])

structure LayoutMode where
  id : String
  label : String
  render : Option VideoSrc → Option VideoSrc → ℚ → ℚ → Background → List PaintOp

def layoutScreenCameraBR : LayoutMode :=
  ⟨"screen-camera-br", "Bottom Right", renderScreenCameraBR⟩

def layoutScreenCameraBL : LayoutMode :=
  ⟨"screen-camera-bl", "Bottom Left", renderScreenCameraBL⟩

def layoutScreenCameraLeft : LayoutMode :=
  ⟨"screen-camera-left", "Camera Left", renderScreenCameraSideLeft⟩

def layoutScreenCameraRight : LayoutMode :=
  ⟨"screen-camera-right", "Camera Right", renderScreenCameraSideRight⟩

def layoutCameraOnlyCenter : LayoutMode :=
  ⟨"camera-only-center", "Centered", renderCameraOnlyCenter⟩

def layoutCameraOnlyFull : LayoutMode :=
  ⟨"camera-only-full", "Full Screen", renderCameraOnlyFull⟩

def layoutScreenOnly : LayoutMode :=
  ⟨"screen-only", "Screen Only", renderScreenOnly⟩

def LAYOUTS : List LayoutMode :=
  [layoutScreenCameraBR, layoutScreenCameraBL, layoutScreenCameraLeft,
   layoutScreenCameraRight, layoutCameraOnlyCenter, layoutCameraOnlyFull,
   layoutScreenOnly]

/-- Embeds `getLayout` of layout-engine.ts (line 279):
`LAYOUTS.find(l => l.id === id) || LAYOUTS[0]`. -/
def getLayout (id : String) : LayoutMode :=
  (LAYOUTS.find? (fun l => l.id == id)).getD layoutScreenCameraBR

/-- Well-formedness of the background argument: a preloaded image element is
decoded, i.e. has positive natural dimensions. -/
def bgWellFormed : Background → Prop
  | .imageElement nw nh => 0 < nw ∧ 0 < nh
  | _ => True

theorem drawBackground_covers (w h : ℚ) (bg : Background)
    (hw : 0 < w) (hh : 0 < h) (hbg : bgWellFormed bg)
    (px py : ℚ) (hpt : inRect ⟨0, 0, w, h⟩ px py) :
    covered (drawBackground w h bg) px py := by
  cases bg with
  | imageElement nw nh =>
    obtain ⟨hnw, hnh⟩ := hbg
    have haspect : 0 < w / h := div_pos hw hh
    by_cases hcmp : nw / nh > w / h
    · refine ⟨PaintOp.image ⟨(nw - nh * (w / h)) / 2, 0, nh * (w / h), nh,
        ⟨0, 0, w, h⟩⟩, ?_, ?_, ?_, hpt⟩
      · simp [drawBackground, hcmp]
      · exact ne_of_gt (mul_pos hnh haspect)
      · exact ne_of_gt hnh
    · refine ⟨PaintOp.image ⟨0, (nh - nw / (w / h)) / 2, nw, nw / (w / h),
        ⟨0, 0, w, h⟩⟩, ?_, ?_, ?_, hpt⟩
      · simp [drawBackground, hcmp]
      · exact ne_of_gt hnw
      · exact ne_of_gt (div_pos hnw haspect)
  | missing => exact ⟨PaintOp.fill ⟨0, 0, w, h⟩, by simp [drawBackground], hpt⟩
  | optionNone => exact ⟨PaintOp.fill ⟨0, 0, w, h⟩, by simp [drawBackground], hpt⟩
  | optionGradient tc =>
    exact ⟨PaintOp.fill ⟨0, 0, w, h⟩, by simp [drawBackground], hpt⟩
  | optionImage => exact ⟨PaintOp.fill ⟨0, 0, w, h⟩, by simp [drawBackground], hpt⟩

/-- Every render function in the layout table begins with its full-canvas
background fill. -/
theorem render_starts_with_background :
    ∀ l ∈ LAYOUTS, ∀ (screen camera : Option VideoSrc) (w h : ℚ)
      (bg : Background), ∃ rest,
        l.render screen camera w h bg = drawBackground w h bg ++ rest := by
  intro l hl screen camera w h bg
  fin_cases hl <;>
    exact ⟨_, rfl⟩

/-- Claim C4: for every layout in the table and every canvas size, one render
invocation paints every pixel of the canvas, for all combinations of present
and absent screen and camera sources and all source aspect ratios, because
each render function first fills the whole canvas via `drawBackground`. -/
theorem C4_layouts_fill_canvas :
    ∀ l ∈ LAYOUTS, ∀ (screen camera : Option VideoSrc) (w h : ℚ)
      (bg : Background), 0 < w → 0 < h → bgWellFormed bg →
      ∀ px py : ℚ, inRect ⟨0, 0, w, h⟩ px py →
        covered (l.render screen camera w h bg) px py := by
  intro l hl screen camera w h bg hw hh hbg px py hpt
  obtain ⟨rest, hrest⟩ := render_starts_with_background l hl screen camera w h bg
  obtain ⟨p, hp, hpaint⟩ := drawBackground_covers w h bg hw hh hbg px py hpt
  exact ⟨p, by simp [hrest, List.mem_append, hp], hpaint⟩

theorem C4_witness :
    covered (layoutScreenCameraBR.render (some ⟨4, 1280, 720⟩)
      (some ⟨4, 640, 480⟩) 1920 1080 .missing) 0 0 := by
  refine C4_layouts_fill_canvas layoutScreenCameraBR (by simp [LAYOUTS])
    (some ⟨4, 1280, 720⟩) (some ⟨4, 640, 480⟩) 1920 1080 .missing
    (by norm_num) (by norm_num) trivial 0 0 ?_
  refine ⟨le_refl 0, by norm_num, le_refl 0, by norm_num⟩

/-- Claim C5: the cover/contain arithmetic of `drawVideo` matches the spec's
reference equations: a 1280x720 source covered into 640x640 is cropped to a
720x720 square at source offset sx = 280 before scaling, and the same source
contained in a 640x360 box is drawn as exactly the 640x360 rectangle with no
letterboxing. -/
theorem C5_cover_contain_math :
    drawVideo ⟨4, 1280, 720⟩ 0 0 640 640 .cover =
      [.image ⟨280, 0, 720, 720, ⟨0, 0, 640, 640⟩⟩] ∧
    drawVideo ⟨4, 1280, 720⟩ 0 0 640 360 .contain =
      [.image ⟨0, 0, 1280, 720, ⟨0, 0, 640, 360⟩⟩] := by
  constructor <;> norm_num [drawVideo]

/-- Claim C10: `getLayout` is total: every id yields a layout from the table
whose id matches, and an id with no matching entry yields the first layout,
`"screen-camera-br"`, never an undefined layout. -/
theorem C10_getLayout_total :
    (∀ id : String, (getLayout id).id = id ∨ getLayout id = layoutScreenCameraBR) ∧
    (∀ id : String, (LAYOUTS.all fun l => !(l.id == id)) = true →
      getLayout id = layoutScreenCameraBR) ∧
    LAYOUTS.head? = some layoutScreenCameraBR ∧
    layoutScreenCameraBR.id = "screen-camera-br" := by
  refine ⟨?_, ?_, rfl, rfl⟩
  · intro id
    cases hfind : LAYOUTS.find? (fun l => l.id == id) with
    | none => right; simp [getLayout, hfind]
    | some l =>
      left
      have hbeq := List.find?_some hfind
      have hgl : getLayout id = l := by simp [getLayout, hfind]
      rw [hgl]
      exact eq_of_beq hbeq
  · intro id hall
    have hnone : LAYOUTS.find? (fun l => l.id == id) = none := by
      rw [List.find?_eq_none]
      intro l hl
      have := List.all_eq_true.1 hall l hl
      simpa using this
    simp [getLayout, hnone]

theorem C10_witness :
    getLayout "no-such-layout" = layoutScreenCameraBR ∧
    ((getLayout "screen-only").id = "screen-only" ∨
      getLayout "screen-only" = layoutScreenCameraBR) := by
  exact ⟨C10_getLayout_total.2.1 "no-such-layout" (by decide),
    C10_getLayout_total.1 "screen-only"⟩

/-!
## Audio mixer

Embeds `createAudioMixer` of `src/unnamed/part_000` (lines 45-76).  The Web
Audio graph is modelled by the list of gain stages connected into the shared
destination; per the Web Audio specification a
`MediaStreamAudioDestinationNode`'s `stream` always contains exactly one
audio `MediaStreamTrack`, independent of how many sources are connected into
the node, which the model records in `destinationStreamAudioTracks`.
-/

structure AudioStreamModel where
  audioTracks : Nat
deriving DecidableEq, Repr

structure MixerDestination where
  connectedGains : List ℚ
deriving DecidableEq, Repr

/-- Web Audio semantics: the destination node's `MediaStream` exposes exactly
one audio track, whatever is connected into the node. -/
def destinationStreamAudioTracks (d : MixerDestination) : Nat := 1

/-- Embeds `createAudioMixer`: create the destination, connect a 0.7 gain stage for
the display stream when it has system audio and a 1.5 gain stage for the
microphone stream when present (each skipped when the stream has no audio
tracks), then return `null` when the destination stream has zero audio
tracks, otherwise the destination. -/
def createAudioMixer (displayStream : AudioStreamModel)
    (micStream : Option AudioStreamModel) (hasDisplayAudio : Bool) :
    Option MixerDestination :=
  let destination : MixerDestination := ⟨[]⟩
  let mix : MixerDestination → Option AudioStreamModel → ℚ → MixerDestination :=
    fun d s gainValue =>
      match s with
      | none => d
      | some st =>
        if st.audioTracks = 0 then d else ⟨d.connectedGains ++ [gainValue]⟩
  let d1 := if hasDisplayAudio then mix destination (some displayStream) 0.7
            else destination
  let d2 := mix d1 micStream 1.5
  if destinationStreamAudioTracks d2 = 0 then none else some d2

/-- Claim C6, evaluated on the code at the failing input: with no system
audio and no microphone stream, `createAudioMixer` still returns the
destination node, with zero connected sources, because the destination's
stream always contains one audio track and the `length === 0` null check can
never fire; so the mixer never returns `null` and the caller's raw-track
fallback branch in `startRecording` is unreachable. -/
theorem C6_mixer_never_null :
    createAudioMixer ⟨0⟩ none false = some ⟨[]⟩ ∧
    (∀ (ds : AudioStreamModel) (ms : Option AudioStreamModel) (hda : Bool),
      (createAudioMixer ds ms hda).isSome = true) := by
  refine ⟨rfl, ?_⟩
  intro ds ms hda
  simp [createAudioMixer, destinationStreamAudioTracks]

/-!
## Source toggling and the composing loop

Embeds `toggleCamera` (lines 1227-1237), `toggleMic` (lines 1242-1252) and
the camera branch of `drawFrame` (lines 1260-1340) of
`src/lib/hooks/usePiPRecording.ts`.  A track carries its `enabled` flag and
whether `stop()` has been called on it; the hook state carries the toggle
flags, the stream refs (as optional tracks), the webcam video element
readiness and the number of frames drawn so far.
-/

structure Track where
  enabled : Bool
  stopped : Bool
deriving DecidableEq, Repr

structure HookSources where
  cameraEnabled : Bool
  micEnabled : Bool
  webcamVideoTrack : Option Track
  micAudioTrack : Option Track
  webcamVideoPresent : Bool
  webcamVideoReadyState : Nat
  canvasReady : Bool
  framesDrawn : Nat
deriving DecidableEq, Repr

/-- Embeds `toggleCamera(enable)`: set the UI flag and set `enabled` on every video
track of the webcam stream; no track is stopped and the stream ref is
kept. -/
def toggleCamera (enable : Bool) (s : HookSources) : HookSources :=
  { s with
    cameraEnabled := enable,
    webcamVideoTrack := s.webcamVideoTrack.map fun t => { t with enabled := enable } }

/-- Embeds `toggleMic(enable)`: set the UI flag and set `enabled` on every audio
track of the microphone stream; no track is stopped and the stream ref is
kept. -/
def toggleMic (enable : Bool) (s : HookSources) : HookSources :=
  { s with
    micEnabled := enable,
    micAudioTrack := s.micAudioTrack.map fun t => { t with enabled := enable } }

/-- The guard of the webcam-overlay branch of `drawFrame` (line 1283):
`webcamVideo && webcamVideo.readyState === 4 && webcamStreamRef.current &&
cameraEnabled`. -/
def drawFrameDrawsCamera (s : HookSources) : Bool :=
  s.webcamVideoPresent && s.webcamVideoReadyState == 4 &&
    s.webcamVideoTrack.isSome && s.cameraEnabled

/-- One invocation of `drawFrame`: an early return when the canvas or its
context is missing, otherwise one composed frame is produced. -/
def drawFrame (s : HookSources) : HookSources :=
  if s.canvasReady then { s with framesDrawn := s.framesDrawn + 1 } else s

/-- Claim C7: toggling camera or microphone off removes that source's
contribution (the camera guard of the next `drawFrame` is false; the
microphone track is muted via `enabled := false`) while the underlying
device connection stays intact: no track is stopped and no stream reference
is released. -/
theorem C7_toggle_disables_without_release :
    ∀ s : HookSources,
      drawFrameDrawsCamera (toggleCamera false s) = false ∧
      (toggleCamera false s).webcamVideoTrack.isSome = s.webcamVideoTrack.isSome ∧
      (toggleCamera false s).webcamVideoTrack.map Track.stopped =
        s.webcamVideoTrack.map Track.stopped ∧
      (toggleCamera false s).webcamVideoTrack.map Track.enabled =
        s.webcamVideoTrack.map (fun t => false) ∧
      (toggleMic false s).micAudioTrack.isSome = s.micAudioTrack.isSome ∧
      (toggleMic false s).micAudioTrack.map Track.stopped =
        s.micAudioTrack.map Track.stopped ∧
      (toggleMic false s).micAudioTrack.map Track.enabled =
        s.micAudioTrack.map (fun t => false) := by
  intro s
  refine ⟨by simp [drawFrameDrawsCamera, toggleCamera], ?_, ?_, ?_, ?_, ?_, ?_⟩ <;>
    cases hwt : s.webcamVideoTrack <;> cases hmt : s.micAudioTrack <;>
      simp [toggleCamera, toggleMic, hwt, hmt]

/-!
## Fallback heartbeat tick

Embeds the fallback interval installed by `startRecording` (lines 1457-1459):
`setInterval(() => { if (document.hidden) drawFrame(); }, 100)`.
-/

def BACKGROUND_INTERVAL_MS : Nat := 100

/-- One fallback heartbeat tick: call `drawFrame` only when the document is
hidden. -/
def backgroundTick (hidden : Bool) (s : HookSources) : HookSources :=
  if hidden then drawFrame s else s

/-- Claim C9: the 100 ms fallback heartbeat invokes the frame-drawing routine
exactly when the host reports the view as not visible; on a tick where the
view is visible it draws nothing, which is the single is-visible guard that
keeps the fallback from drawing concurrently with the primary tick. -/
theorem C9_fallback_draws_only_when_hidden :
    (∀ s : HookSources, backgroundTick false s = s) ∧
    (∀ s : HookSources, backgroundTick true s = drawFrame s) ∧
    BACKGROUND_INTERVAL_MS = 100 := by
  exact ⟨fun s => rfl, fun s => rfl, rfl⟩

/-!
## resetRecording

Embeds `resetRecording` of `src/lib/hooks/usePiPRecording.ts` (lines
1615-1629): revoke the recorded object URL when one is held, apply the
`reset` transition, clear blob, url, duration and error, and clear the
preview stream.  The function does not stop or clear the screen, webcam or
microphone streams and does not reset the permission flags.
-/

structure HookState where
  fsm : RState
  recordedBlobHeld : Bool
  recordedVideoUrl : String
  recordingDuration : Nat
  errorHeld : Bool
  previewStream : Bool
  revokedUrls : List String
  screenActive : Bool
  cameraActive : Bool
  micActive : Bool
deriving DecidableEq, Repr

def resetRecording (s : HookState) : HookState :=
  { s with
    revokedUrls :=
      if s.recordedVideoUrl ≠ "" then s.revokedUrls ++ [s.recordedVideoUrl]
      else s.revokedUrls,
    fsm := (stepFSM s.fsm .reset).2,
    recordedBlobHeld := false,
    recordedVideoUrl := "",
    recordingDuration := 0,
    errorHeld := false,
    previewStream := false }

def activeSourceHandles (s : HookState) : Nat :=
  (if s.screenActive then 1 else 0) + (if s.cameraActive then 1 else 0) +
    (if s.micActive then 1 else 0)

/-- The session state the code actually produces at completion: the
`onStop` handler ran `cleanupRecordingResources`, which stops the screen
stream but deliberately preserves camera and microphone for re-recording. -/
def postCompletedState : HookState :=
  { fsm := .completed,
    recordedBlobHeld := true,
    recordedVideoUrl := "blob:recording",
    recordingDuration := 42,
    errorHeld := false,
    previewStream := false,
    revokedUrls := [],
    screenActive := false,
    cameraActive := true,
    micActive := true }

/-- Claim C8 as stated is false on the code: calling reset on a completed
session that still holds the camera and microphone returns to idle and
releases the artifact, but does not leave zero source handles active —
`resetRecording` never touches the camera or microphone streams. -/
theorem C8_counterexample :
    ¬ ((resetRecording postCompletedState).fsm = .idle ∧
       (resetRecording postCompletedState).recordedBlobHeld = false ∧
       activeSourceHandles (resetRecording postCompletedState) = 0) := by
  decide

/-- Claim C8 (amended): reset after `completed` or `error` always returns the
state machine to idle and releases the previous artifact's resources (the
blob reference is dropped, the url is cleared and revoked, duration and error
are reset, the preview stream is cleared), but it releases no source handle:
every source-handle flag is left exactly as it was, the camera and
microphone being deliberately preserved for a retake. -/
theorem C8_reset_idle_releases_artifact_keeps_sources :
    ∀ s : HookState, s.fsm = .completed ∨ s.fsm = .error →
      (resetRecording s).fsm = .idle ∧
      (resetRecording s).recordedBlobHeld = false ∧
      (resetRecording s).recordedVideoUrl = "" ∧
      (s.recordedVideoUrl ≠ "" →
        s.recordedVideoUrl ∈ (resetRecording s).revokedUrls) ∧
      (resetRecording s).recordingDuration = 0 ∧
      (resetRecording s).errorHeld = false ∧
      (resetRecording s).previewStream = false ∧
      (resetRecording s).screenActive = s.screenActive ∧
      (resetRecording s).cameraActive = s.cameraActive ∧
      (resetRecording s).micActive = s.micActive := by
  intro s hterm
  have hreset : ∀ st : RState, (stepFSM st .reset).2 = .idle := by decide
  refine ⟨hreset s.fsm, rfl, rfl, ?_, rfl, rfl, rfl, rfl, rfl, rfl⟩
  intro hurl
  simp [resetRecording, hurl]

theorem C8_witness :
    (resetRecording postCompletedState).fsm = .idle ∧
    (resetRecording postCompletedState).recordedBlobHeld = false ∧
    "blob:recording" ∈ (resetRecording postCompletedState).revokedUrls ∧
    (resetRecording postCompletedState).cameraActive = true := by
  have h := C8_reset_idle_releases_artifact_keeps_sources postCompletedState
    (Or.inl rfl)
  exact ⟨h.1, h.2.1, h.2.2.2.1 (by decide), h.2.2.2.2.2.2.2.2.2⟩

end Clipora
